import Mathlib

/-!
Verification of the audio-transcription service (`src/app.py` and
`src/Heroku_deployment/app.py`) against its natural-language specification.

The Python source is shallowly embedded: strings are `List Char` where
character-level processing matters, dictionaries with known keys become
structures with `Option` fields (a `none` field models an absent key, and
`Option.getD` models `dict.get(key, default)`), and functions that may raise
a Python exception return `Option` (`none` = an exception escapes).
External collaborators (the NLTK sentence segmenter, `datetime.fromisoformat`)
enter as function parameters or as explicitly documented models.
-/

namespace TranscriptionService

/-! ## Python string primitives used by `post_process_text` -/

/-- The ASCII whitespace characters recognised by Python's `str.split()` /
`str.strip()` (space, tab, newline, carriage return, vertical tab, form feed). -/
def isPySpace (c : Char) : Bool :=
  c == ' ' || c == '\t' || c == '\n' || c == '\r' || c == '\x0b' || c == '\x0c'

/-- Helper for `splitWs`: accumulates the current word (reversed) while
scanning. Models Python `str.split()` with no argument: splits on runs of
whitespace and never yields empty pieces. -/
def splitWsAux : List Char → List Char → List (List Char)
  | [], acc => if acc.isEmpty then [] else [acc.reverse]
  | c :: rest, acc =>
    if isPySpace c then
      if acc.isEmpty then splitWsAux rest [] else acc.reverse :: splitWsAux rest []
    else
      splitWsAux rest (c :: acc)

/-- Python `raw_text.split()`. -/
def splitWs (s : List Char) : List (List Char) := splitWsAux s []

/-- Python `' '.join(raw_text.split())` — collapses whitespace runs to single
spaces (and strips the ends), from `app.py` line 107. -/
def collapseWs (s : List Char) : List Char :=
  List.intercalate [' '] (splitWs s)

/-- Python `str.strip()` (with no argument): removes whitespace from both
ends. -/
def pyStrip (s : List Char) : List Char :=
  ((s.dropWhile isPySpace).reverse.dropWhile isPySpace).reverse

/-! ## `post_process_text` (TextNormalizer)

`src/app.py` lines 101-119 and `src/Heroku_deployment/app.py` lines 172-198.
The NLTK segmenter `sent_tokenize` is an external collaborator; it is passed
in as `tok : List Char → Option (List (List Char))`, where `tok t = none`
models the segmenter raising an exception (e.g. the `punkt` data being
unavailable). -/

/-- The body of the `for sentence in sentences:` loop of `post_process_text`
applied to one sentence (both variants share this loop verbatim):
strip, upper-case the first character, append `'.'` unless the last
character is `'.'`, `'!'` or `'?'`. Sentences whose strip is empty are
skipped by the loop (`continue`), which `processSentences` handles. -/
def processSentence (sentence : List Char) : List Char :=
  let p := pyStrip sentence
  let p := match p with
    | [] => ([] : List Char)
    | c :: rest => c.toUpper :: rest
  match p.getLast? with
  | none => p
  | some c => if c = '.' ∨ c = '!' ∨ c = '?' then p else p ++ ['.']

/-- The whole loop plus the final `" ".join(processed_sentences)`. -/
def processSentences (sentences : List (List Char)) : List Char :=
  List.intercalate [' ']
    ((sentences.filter (fun s => !(pyStrip s).isEmpty)).map processSentence)

/-- `post_process_text` from `src/app.py` (lines 101-119).  The segmenter is
called with no exception handler, so a segmenter failure (`tok _ = none`)
propagates out of the function (`none`). -/
def post_process_text (tok : List Char → Option (List (List Char)))
    (raw : List Char) : Option (List Char) :=
  if raw.isEmpty then some [] else
    (tok (collapseWs raw)).map processSentences

/-- The fallback splitter of the Heroku variant (line 186):
`text.replace('. ', '.|').replace('! ', '!|').replace('? ', '?|').split('|')`.
`replacePairBar a` models `replace(a + ' ', a + '|')` (left-to-right,
non-overlapping, as Python str.replace is). -/
def replacePairBar (a : Char) : List Char → List Char
  | [] => []
  | [c] => [c]
  | c :: d :: rest =>
    if c = a ∧ d = ' ' then c :: '|' :: replacePairBar a rest
    else c :: replacePairBar a (d :: rest)

/-- The Heroku fallback sentence split. -/
def fallbackSplit (t : List Char) : List (List Char) :=
  (replacePairBar '?' (replacePairBar '!' (replacePairBar '.' t))).splitOn '|'

/-- `post_process_text` from `src/Heroku_deployment/app.py` (lines 172-198):
identical to the main variant except that the `sent_tokenize` call is wrapped
in `try/except`, falling back to `fallbackSplit` — so nothing escapes and the
return type is total. -/
def post_process_text_heroku (tok : List Char → Option (List (List Char)))
    (raw : List Char) : List Char :=
  if raw.isEmpty then [] else
    let t := collapseWs raw
    let sentences := match tok t with
      | some ss => ss
      | none => fallbackSplit t
    processSentences sentences

/-- Modelled from the spec (§4.1): the per-sentence normalization rule in the
spec's own words — "for each non-empty sentence: trims, upper-cases the first
character (leaving the rest unchanged), and appends a terminal `.` only if
the sentence does not already end in `.`, `!`, or `?`", joined with a single
space ("non-empty" read as non-empty after trimming, as whitespace-only
pieces carry no sentence). -/
def normalizeSpecSentences (sentences : List (List Char)) : List Char :=
  let step : List Char → List (List Char) := fun s =>
    match pyStrip s with
    | [] => []
    | c :: rest =>
      let capped := c.toUpper :: rest
      match capped.getLast? with
      | some last => if last ∈ ['.', '!', '?'] then [capped] else [capped ++ ['.']]
      | none => [capped]
  List.intercalate [' '] (sentences.flatMap step)

/-! ## `write_to_google_sheet` (TabularUpsert)

`src/app.py` lines 160-229.  The worksheet is a list of rows; the function
only ever writes 3-cell rows (`[timestamp, audio_filename, transcript_text]`
and the header), so a row is a 3-cell structure.  `c1` is the worksheet's
column 1 ("Timestamp"), `c2` column 2 ("Audio Filename", the key column
scanned by `col_values(2)`), `c3` column 3 ("Transcribed Text").
Remote-store transport failures abort the whole operation without partial
writes in this model; the claims under verification concern the successful
read-scan-write path (lines 185-220). -/

structure SheetRow where
  c1 : String
  c2 : String
  c3 : String
  deriving DecidableEq, Repr

/-- The header appended on creation / when the worksheet is empty
(lines 193 and 199). -/
def headerRow : SheetRow :=
  ⟨"Timestamp", "Audio Filename", "Transcribed Text"⟩

/-- `update_cell(found_row_index, 1, timestamp)` followed by
`update_cell(found_row_index, 3, transcript_text)` (lines 216-217): rewrite
cells 1 and 3 of the row at the given 0-based index, leaving cell 2 and all
other rows alone. -/
def updateRow : List SheetRow → Nat → String → String → List SheetRow
  | [], _, _, _ => []
  | r :: rest, 0, ts, tx => ⟨ts, r.c2, tx⟩ :: rest
  | r :: rest, n + 1, ts, tx => r :: updateRow rest n ts tx

/-- The scan loop of lines 207-212: `for i, name_in_sheet in
enumerate(filename_col_values): if name_in_sheet == audio_filename:
found_row_index = i + 1; break`.  Returns the 0-based index of the first
row whose column-2 cell equals `key` (the source's `+ 1` is only gspread's
1-based row numbering). -/
def findKeyIdx (key : String) : List SheetRow → Option Nat
  | [] => none
  | r :: rest =>
    if r.c2 == key then some 0 else (findKeyIdx key rest).map (· + 1)

/-- `write_to_google_sheet(audio_filename, transcript_text)` at a given
`timestamp`, acting on worksheet state `ws`:
 * lines 190-201: a missing or empty worksheet gets the header appended
   first (creation and the found-but-empty case coincide on the state);
 * lines 206-212: scan column 2 top-to-bottom for the first cell equal to
   `audio_filename` (`col_values(2)` / `enumerate` / `break`);
 * lines 214-220: on a match update cells 1 and 3 of that row in place,
   otherwise append `[timestamp, audio_filename, transcript_text]`. -/
def write_to_google_sheet (ws : List SheetRow)
    (audio_filename transcript_text timestamp : String) : List SheetRow :=
  let ws := if ws.isEmpty then ws ++ [headerRow] else ws
  match findKeyIdx audio_filename ws with
  | some i => updateRow ws i timestamp transcript_text
  | none => ws ++ [⟨timestamp, audio_filename, transcript_text⟩]

/-- Number of live rows whose key cell (column 2) equals `key`. -/
def countKey (ws : List SheetRow) (key : String) : Nat :=
  (ws.filter (fun r => r.c2 == key)).length

/-- A concrete data row used by the witness theorems below. -/
def sampleDataRow : SheetRow := ⟨"t0", "a.mp3", "old"⟩

/-- A concrete provisioned worksheet (header plus one data row) used by the
witness theorems below. -/
def sampleSheet : List SheetRow := [headerRow, sampleDataRow]

/-! ## VideoAsk webhook data model

`map_videoask_to_sheet` (`src/app.py` lines 232-341) and
`process_videoask_payload` (lines 457-520).  Webhook dictionaries with
known keys become structures with `Option` fields (a `none` field is an
absent key; `Option.getD` is `dict.get(key, default)`).  The column
dictionary `mapped_data` has a fixed key set, so it becomes the structure
`MappedData`; its link/content fields stand for the `'🔗 …'`/`'📝 …'`
column pairs. -/

/-- A naive `datetime` value as produced by `datetime.fromisoformat`. -/
structure PyDateTime where
  year : Nat
  month : Nat
  day : Nat
  hour : Nat
  minute : Nat
  second : Nat
  deriving DecidableEq, Repr

def pad2 (n : Nat) : String :=
  if n < 10 then "0" ++ toString n else toString n

def pad4 (n : Nat) : String :=
  if n < 10 then "000" ++ toString n
  else if n < 100 then "00" ++ toString n
  else if n < 1000 then "0" ++ toString n
  else toString n

/-- `dt.strftime('%Y-%m-%d %H:%M:%S')` (line 270). -/
def strftimeDateTime (dt : PyDateTime) : String :=
  pad4 dt.year ++ "-" ++ pad2 dt.month ++ "-" ++ pad2 dt.day ++ " " ++
    pad2 dt.hour ++ ":" ++ pad2 dt.minute ++ ":" ++ pad2 dt.second

/-- `created_at.replace('Z', '+00:00')` (line 268). -/
def replaceZ (s : String) : String :=
  String.mk (s.toList.flatMap (fun c => if c = 'Z' then "+00:00".toList else [c]))

def digitVal (c : Char) : Option Nat :=
  if c.isDigit then some (c.toNat - 48) else none

def read2 : List Char → Option (Nat × List Char)
  | a :: b :: rest =>
    match digitVal a, digitVal b with
    | some x, some y => some (10 * x + y, rest)
    | _, _ => none
  | _ => none

def read4 : List Char → Option (Nat × List Char)
  | a :: b :: c :: d :: rest =>
    match digitVal a, digitVal b, digitVal c, digitVal d with
    | some w, some x, some y, some z =>
      some (1000 * w + 100 * x + 10 * y + z, rest)
    | _, _, _, _ => none
  | _ => none

def expectChar (c : Char) : List Char → Option (List Char)
  | x :: rest => if x = c then some rest else none
  | [] => none

/-- Model of the external Python `datetime.fromisoformat` for the shapes
this service feeds it: `YYYY-MM-DD`, a `T` or space separator, `HH:MM:SS`,
optionally suffixed with a `+00:00` UTC offset.  A string not of this shape
(e.g. `"not-a-date"`) makes the real function raise `ValueError`, modelled
as `none`. -/
def pyFromIso (s : String) : Option PyDateTime := do
  let (y, r) ← read4 s.toList
  let r ← expectChar '-' r
  let (mo, r) ← read2 r
  let r ← expectChar '-' r
  let (d, r) ← read2 r
  let r ← (match r with
           | c :: rest => if c = 'T' ∨ c = ' ' then some rest else none
           | [] => none)
  let (h, r) ← read2 r
  let r ← expectChar ':' r
  let (mi, r) ← read2 r
  let r ← expectChar ':' r
  let (sec, r) ← read2 r
  if r = [] ∨ r = "+00:00".toList then
    if 1 ≤ mo ∧ mo ≤ 12 ∧ 1 ≤ d ∧ d ≤ 31 ∧ h ≤ 23 ∧ mi ≤ 59 ∧ sec ≤ 59 then
      some ⟨y, mo, d, h, mi, sec⟩
    else none
  else none

/-- One entry of `form['questions']` (lines 280-284). -/
structure Question where
  question_id : Option String
  label : Option String
  title : Option String
  share_url : Option String
  deriving DecidableEq, Repr

/-- One entry of `contact['answers']` (lines 307-322).  `atype` is the
dictionary key `'type'`. -/
structure Answer where
  question_id : Option String
  atype : Option String
  transcription : Option String
  text : Option String
  poll_option_content : Option String
  share_url : Option String
  deriving DecidableEq, Repr

structure Contact where
  name : Option String
  created_at : Option String
  email : Option String
  product_name : Option String
  answers : List Answer
  deriving DecidableEq, Repr

/-- `contact = payload.get('contact', {})`: the empty-dictionary default. -/
def emptyContact : Contact := ⟨none, none, none, none, []⟩

structure Form where
  questions : List Question
  deriving DecidableEq, Repr

/-- A concrete contact used by the witness theorems below (field values
from the built-in sample payload of `/webhook/test`, lines 686-691). -/
def sampleContact : Contact :=
  { emptyContact with
      name := some "John Doe"
      created_at := some "2025-06-02T10:30:00Z"
      email := some "john.doe@example.com"
      product_name := some "Test Location" }

/-- The parse of `sampleContact`'s creation timestamp. -/
def sampleDT : PyDateTime := ⟨2025, 6, 2, 10, 30, 0⟩


/-- The five semantic categories of lines 288-297 (`question_type`
values). -/
inductive QuestionType where
  | intro
  | influence
  | advice
  | purpose
  | connected
  deriving DecidableEq, Repr

/-- Python's substring test `pat in s`. -/
def containsSub (pat s : String) : Bool :=
  s.toList.tails.any (fun t => pat.toList.isPrefixOf t)

/-- The classification chain of lines 287-297: the ordered `if/elif`
substring tests against `label` and `title`. -/
def questionTypeOf (label title : String) : Option QuestionType :=
  if containsSub "Introduce Yourself" label ||
      containsSub "Introduce Yourself" title then some .intro
  else if containsSub "Foundation\x27s Influence" label ||
      containsSub "Foundation\x27s Influence" title then some .influence
  else if containsSub "Sharing Advice" label ||
      containsSub "Sharing Advice" title then some .advice
  else if containsSub "Purpose & Joy" label ||
      containsSub "Purpose & Joy" title then some .purpose
  else if containsSub "Staying Connected" label ||
      containsSub "Staying Connected" title then some .connected
  else none

/-- Modelled from the spec (§4.2): the fixed, ordered marker table. -/
def markerTable : List (String × QuestionType) :=
  [("Introduce Yourself", .intro),
   ("Foundation\x27s Influence", .influence),
   ("Sharing Advice", .advice),
   ("Purpose & Joy", .purpose),
   ("Staying Connected", .connected)]

/-- Modelled from the spec (§4.2): "category is chosen by case-sensitive
substring search against a fixed, ordered list of marker phrases …
first matching marker wins". -/
def questionTypeSpec (label title : String) : Option QuestionType :=
  (markerTable.find?
    (fun p => containsSub p.1 label || containsSub p.1 title)).map (·.2)

/-- The value stored in `question_map` per question id (lines 300-303). -/
structure QuestionInfo where
  qtype : QuestionType
  share_url : String
  deriving DecidableEq, Repr

/-- The `question_map` construction loop (lines 280-303).  A Python dict
keyed by strings is modelled as its lookup function; later insertions with
the same key shadow earlier ones, as dict assignment does.  The guard
`if question_type and question_id` keeps only classified questions with a
present, non-empty id. -/
def buildQuestionMap (questions : List Question) :
    String → Option QuestionInfo :=
  questions.foldl
    (fun qm question =>
      let label := question.label.getD ""
      let title := question.title.getD ""
      let share_url := question.share_url.getD ""
      match questionTypeOf label title, question.question_id with
      | some ty, some qid =>
        if qid ≠ "" then
          fun i => if i = qid then some ⟨ty, share_url⟩ else qm i
        else qm
      | _, _ => qm)
    (fun _ => none)

/-- The answer-content dispatch of lines 316-322 (`AnswerExtractor`):
`transcription` for video/audio, `text` for text, `poll_option_content`
for poll, `''` otherwise. -/
def answer_content (a : Answer) : String :=
  if a.atype = some "video" ∨ a.atype = some "audio" then
    a.transcription.getD ""
  else if a.atype = some "text" then a.text.getD ""
  else if a.atype = some "poll" then a.poll_option_content.getD ""
  else ""

/-- The fixed-key column dictionary `mapped_data` (lines 244-259). -/
structure MappedData where
  name : String
  date : String
  email : String
  location : String
  introLink : String
  introContent : String
  influenceLink : String
  influenceContent : String
  adviceLink : String
  adviceContent : String
  purposeLink : String
  purposeContent : String
  connectedLink : String
  connectedContent : String
  deriving DecidableEq, Repr

/-- Lines 244-259: every cell initialised to the empty string. -/
def emptyMappedData : MappedData :=
  ⟨"", "", "", "", "", "", "", "", "", "", "", "", "", ""⟩

/-- A concrete classified question, used by the witness theorems below. -/
def wQuestion : Question :=
  ⟨some "q1", some "Introduce Yourself", some "Tell us about yourself",
   some "https://example.com/share/q"⟩

def wForm : Form := ⟨[wQuestion]⟩

/-- First of two answers to the same question. -/
def wAnswerFirst : Answer :=
  ⟨some "q1", some "text", none, some "first answer", none,
   some "https://example.com/share/a1"⟩

/-- Second answer to the same question; no own `share_url`, so the
question's is used. -/
def wAnswerSecond : Answer :=
  ⟨some "q1", some "text", none, some "second answer", none, none⟩

def wContact : Contact :=
  { emptyContact with answers := [wAnswerFirst, wAnswerSecond] }

/-- The mapping result for `wContact`/`wForm`: the second answer's values
occupy the Intro pair. -/
def wMapped : MappedData :=
  { emptyMappedData with
      introLink := "https://example.com/share/q"
      introContent := "second answer" }

/-- The category-indexed cell-pair write of lines 325-339. -/
def setPair (md : MappedData) (ty : QuestionType) (link content : String) :
    MappedData :=
  match ty with
  | .intro => { md with introLink := link, introContent := content }
  | .influence => { md with influenceLink := link, influenceContent := content }
  | .advice => { md with adviceLink := link, adviceContent := content }
  | .purpose => { md with purposeLink := link, purposeContent := content }
  | .connected => { md with connectedLink := link, connectedContent := content }

/-- The category-indexed cell-pair read, for stating properties. -/
def pairOf (md : MappedData) (ty : QuestionType) : String × String :=
  match ty with
  | .intro => (md.introLink, md.introContent)
  | .influence => (md.influenceLink, md.influenceContent)
  | .advice => (md.adviceLink, md.adviceContent)
  | .purpose => (md.purposeLink, md.purposeContent)
  | .connected => (md.connectedLink, md.connectedContent)

/-- One iteration of the `for answer in answers:` loop (lines 307-339):
skip answers whose `question_id` is absent from `question_map`; otherwise
write the category's cell pair, the link being the answer's own
`share_url` if that key is present, else the question's. -/
def processAnswer (qm : String → Option QuestionInfo) (md : MappedData)
    (a : Answer) : MappedData :=
  match a.question_id with
  | none => md
  | some qid =>
    match qm qid with
    | none => md
    | some info =>
      setPair md info.qtype (a.share_url.getD info.share_url)
        (answer_content a)

/-- The whole answers loop. -/
def processAnswers (qm : String → Option QuestionInfo) (md : MappedData)
    (answers : List Answer) : MappedData :=
  answers.foldl (processAnswer qm) md

/-- `map_videoask_to_sheet(contact, form)` (lines 232-341), parameterised
by the external timestamp parser (`datetime.fromisoformat`).  Line 268
calls the parser with no exception handler, so a parse failure
(`parseIso _ = none`) propagates out of the whole mapping (`none`). -/
def map_videoask_to_sheet (parseIso : String → Option PyDateTime)
    (contact : Contact) (form : Form) : Option MappedData :=
  let created_at := contact.created_at.getD ""
  let dateRes : Option String :=
    if created_at ≠ "" then
      match parseIso (replaceZ created_at) with
      | some dt => some (strftimeDateTime dt)
      | none => none
    else some ""
  match dateRes with
  | none => none
  | some d =>
    some (processAnswers (buildQuestionMap form.questions)
      { emptyMappedData with
          name := contact.name.getD ""
          date := d
          email := contact.email.getD ""
          location := contact.product_name.getD "" }
      contact.answers)

/-- The classified-answers of one category, in payload iteration order:
the answers of `answers` whose `question_id` is classified by `qm` to
`ty`. -/
def relevantAnswers (qm : String → Option QuestionInfo) (ty : QuestionType)
    (answers : List Answer) : List Answer :=
  answers.filter (fun a =>
    match a.question_id with
    | none => false
    | some qid =>
      match qm qid with
      | none => false
      | some info => info.qtype = ty)

/-- The `(link, content)` pair an answer contributes (lines 313-322). -/
def derivedPair (qm : String → Option QuestionInfo) (a : Answer) :
    String × String :=
  match a.question_id with
  | none => ("", "")
  | some qid =>
    match qm qid with
    | none => ("", "")
    | some info => (a.share_url.getD info.share_url, answer_content a)

/-! ## `process_videoask_payload` (WebhookPipeline) -/

structure Payload where
  event_type : Option String
  contact : Option Contact
  form : Option Form
  deriving DecidableEq, Repr

/-- `processing_stats` (lines 468-474). -/
structure ProcessingStats where
  processed : Nat
  skipped : Nat
  errors : Nat
  email : String
  details : List String
  deriving DecidableEq, Repr

/-- `process_videoask_payload(payload)` (lines 457-520), returning the
stats together with two effect counters: how many times
`update_videoask_google_sheet` was attempted and how many times
`map_videoask_to_sheet` was invoked.  `sheetOutcome` is the boolean result
of `update_videoask_google_sheet` (that function catches its own
exceptions and returns `False`, lines 423-425); `save_local_copy` absorbs
its own errors internally (lines 454-455), so the backup step never
raises and adds no error count. -/
def process_videoask_payload (parseIso : String → Option PyDateTime)
    (sheetOutcome : Bool) (payload : Payload) :
    ProcessingStats × Nat × Nat :=
  let stats0 : ProcessingStats := ⟨0, 0, 0, "", []⟩
  if payload.event_type ≠ some "form_response" then
    ({ stats0 with
        skipped := 1
        details := ["Skipped non-form_response event"] }, 0, 0)
  else
    let contact := payload.contact.getD emptyContact
    let form := payload.form.getD ⟨[]⟩
    let email := contact.email.getD "unknown@email.com"
    match map_videoask_to_sheet parseIso contact form with
    | none =>
      ({ stats0 with
          errors := 1
          email := email
          details := ["Processing error"] }, 0, 1)
    | some _sheet_data =>
      if sheetOutcome then
        ({ stats0 with
            processed := 1
            email := email
            details := ["Successfully updated Google Sheet",
                        "Local backup saved successfully"] }, 1, 1)
      else
        ({ stats0 with
            errors := 1
            email := email
            details := ["Failed to update Google Sheet",
                        "Local backup saved successfully"] }, 1, 1)

/-! ## `handle_transcribe` (TranscriptionPipeline)

`src/app.py` lines 533-634.  The request handler is embedded as a function
of the branch-deciding oracles (presence of the request fields, base64
validity, the ASR result, whether post-processing / the local transcript
write raise, whether a Google sheet is configured) over an explicit state:
the set of files in the uploads directory and a count of
`write_to_google_sheet` attempts.  Every external call's possible failure
is one oracle, so quantifying over the oracles covers every exit path of
the `try/except/finally`. -/

structure TranscribeState where
  files : List String
  sheetWriteAttempts : Nat
  deriving DecidableEq, Repr

/-- The `finally` clause (lines 627-634): `if os.path.exists(temp_file_path):
os.remove(temp_file_path)`. -/
def removeIfExists (fs : List String) (p : String) : List String :=
  if p ∈ fs then fs.erase p else fs

/-- `handle_transcribe` (lines 533-634) over the oracles:
 * `hasFields = false` — lines 539-541: missing `file_data`/`file_name`,
   400 before any file is created (the `finally` is not yet in scope);
 * `decodeOk = false` — line 562 raises `binascii.Error` before the temp
   file is written, caught at 621-623 (400), `finally` runs (no-op);
 * `asr = none` — lines 568-571: transcription failed, 500;
 * `postOk = false` / `localOk = false` — post-processing (the segmenter
   can raise, see `post_process_text`) or the local transcript write
   raising, caught by the generic handler at 624-626 (500);
 * the sheet write (lines 594-611) is attempted iff `sheetConfigured`,
   inside its own `try/except`, so its outcome never changes the path;
 * success — lines 613-619 (200).
In every branch after the temp file is written (line 563), the `finally`
(lines 627-634) removes it. -/
def handle_transcribe (hasFields decodeOk : Bool) (asr : Option String)
    (postOk localOk sheetConfigured : Bool) (tempPath : String)
    (s : TranscribeState) : Nat × TranscribeState :=
  if !hasFields then (400, s)
  else if !decodeOk then
    (400, { s with files := removeIfExists s.files tempPath })
  else
    let s1 := { s with files := s.files ++ [tempPath] }
    match asr with
    | none => (500, { s1 with files := removeIfExists s1.files tempPath })
    | some _raw =>
      if !postOk then
        (500, { s1 with files := removeIfExists s1.files tempPath })
      else if !localOk then
        (500, { s1 with files := removeIfExists s1.files tempPath })
      else
        let s2 := if sheetConfigured then
            { s1 with sheetWriteAttempts := s1.sheetWriteAttempts + 1 }
          else s1
        (200, { s2 with files := removeIfExists s2.files tempPath })

/-- One-pass equivalent of the scan-then-write of lines 206-220, used only
to structure the proofs below. -/
def upsertRows : List SheetRow → String → String → String → List SheetRow
  | [], f, x, t => [⟨t, f, x⟩]
  | r :: rest, f, x, t =>
    if r.c2 == f then ⟨t, r.c2, x⟩ :: rest else r :: upsertRows rest f x t

lemma scanWrite_eq_upsertRows (ws : List SheetRow) (f x t : String) :
    (match findKeyIdx f ws with
     | some i => updateRow ws i t x
     | none => ws ++ [⟨t, f, x⟩]) = upsertRows ws f x t := by
  induction ws with
  | nil => rfl
  | cons r rest ih =>
    rw [upsertRows, findKeyIdx]
    by_cases h : r.c2 == f
    · rw [if_pos h, if_pos h]; rfl
    · rw [if_neg h, if_neg h]
      cases hfi : findKeyIdx f rest with
      | none =>
        rw [hfi] at ih
        show (r :: rest) ++ [(⟨t, f, x⟩ : SheetRow)] = r :: upsertRows rest f x t
        rw [← ih]; rfl
      | some i =>
        rw [hfi] at ih
        show updateRow (r :: rest) (i + 1) t x = r :: upsertRows rest f x t
        exact congrArg (List.cons r) ih

lemma write_eq_upsertRows (ws : List SheetRow) (f x t : String) :
    write_to_google_sheet ws f x t =
      upsertRows (if ws.isEmpty then ws ++ [headerRow] else ws) f x t := by
  unfold write_to_google_sheet
  exact scanWrite_eq_upsertRows _ f x t

lemma countKey_nil (f : String) : countKey [] f = 0 := rfl

lemma countKey_cons (r : SheetRow) (ws : List SheetRow) (f : String) :
    countKey (r :: ws) f = (if r.c2 == f then 1 else 0) + countKey ws f := by
  by_cases h : r.c2 == f <;>
    simp [countKey, List.filter_cons, h, Nat.add_comm]

lemma countKey_upsertRows (ws : List SheetRow) (f x t : String)
    (h : countKey ws f ≤ 1) : countKey (upsertRows ws f x t) f = 1 := by
  induction ws with
  | nil => simp [upsertRows, countKey]
  | cons r rest ih =>
    rw [countKey_cons] at h
    by_cases hr : r.c2 == f
    · rw [if_pos hr] at h
      have hrest : countKey rest f = 0 := by omega
      rw [upsertRows, if_pos hr, countKey_cons]
      simp only [hr, if_pos, hrest]
    · rw [if_neg hr] at h
      rw [upsertRows, if_neg hr, countKey_cons, if_neg hr]
      simpa using ih (by omega)

lemma pos_countKey_of_mem {ws : List SheetRow} {r : SheetRow} {f : String}
    (hm : r ∈ ws) (hf : r.c2 = f) : 0 < countKey ws f := by
  have : r ∈ ws.filter (fun r => r.c2 == f) :=
    List.mem_filter.mpr ⟨hm, by simp [hf]⟩
  have := List.length_pos.mpr (List.ne_nil_of_mem this)
  simpa [countKey] using this

lemma mem_upsertRows_values (ws : List SheetRow) (f x t : String)
    (h : countKey ws f ≤ 1) :
    ∀ r ∈ upsertRows ws f x t, r.c2 = f → r.c1 = t ∧ r.c3 = x := by
  induction ws with
  | nil =>
    intro r hr _
    rw [upsertRows, List.mem_singleton] at hr
    subst hr; exact ⟨rfl, rfl⟩
  | cons q rest ih =>
    rw [countKey_cons] at h
    by_cases hq : q.c2 == f
    · rw [if_pos hq] at h
      have hrest : countKey rest f = 0 := by omega
      intro r hr hrf
      rw [upsertRows, if_pos hq, List.mem_cons] at hr
      rcases hr with hr | hr
      · subst hr; exact ⟨rfl, rfl⟩
      · exact absurd (pos_countKey_of_mem hr hrf) (by omega)
    · rw [if_neg hq] at h
      intro r hr hrf
      rw [upsertRows, if_neg hq, List.mem_cons] at hr
      rcases hr with hr | hr
      · subst hr; exact absurd hrf (by simpa using hq)
      · exact ih (by omega) r hr hrf

lemma write_establishes (ws : List SheetRow) (f x t : String)
    (h : countKey ws f ≤ 1) :
    countKey (write_to_google_sheet ws f x t) f = 1 ∧
    ∀ r ∈ write_to_google_sheet ws f x t, r.c2 = f → r.c1 = t ∧ r.c3 = x := by
  rw [write_eq_upsertRows]
  have hpre : countKey (if ws.isEmpty then ws ++ [headerRow] else ws) f ≤ 1 := by
    split
    · next he =>
      rw [List.isEmpty_iff] at he
      subst he
      rw [List.nil_append, countKey_cons, countKey_nil]
      split <;> omega
    · exact h
  exact ⟨countKey_upsertRows _ _ _ _ hpre, mem_upsertRows_values _ _ _ _ hpre⟩

lemma updateRow_length (ws : List SheetRow) (i : Nat) (ts tx : String) :
    (updateRow ws i ts tx).length = ws.length := by
  induction ws generalizing i with
  | nil => rfl
  | cons r rest ih =>
    cases i with
    | zero => rfl
    | succ n => simpa [updateRow] using ih n

lemma updateRow_getElem_ne (ws : List SheetRow) (i : Nat) (ts tx : String)
    (j : Nat) (hj : j ≠ i) : (updateRow ws i ts tx)[j]? = ws[j]? := by
  induction ws generalizing i j with
  | nil => rfl
  | cons r rest ih =>
    cases i with
    | zero =>
      cases j with
      | zero => exact absurd rfl hj
      | succ m => simp [updateRow]
    | succ n =>
      cases j with
      | zero => simp [updateRow]
      | succ m =>
        rw [updateRow]
        simpa using ih n m (by omega)

lemma updateRow_getElem_self (ws : List SheetRow) (i : Nat) (ts tx : String) :
    (updateRow ws i ts tx)[i]? =
      ws[i]?.map (fun r => (⟨ts, r.c2, tx⟩ : SheetRow)) := by
  induction ws generalizing i with
  | nil => cases i <;> rfl
  | cons r rest ih =>
    cases i with
    | zero => simp [updateRow]
    | succ n =>
      rw [updateRow]
      simpa using ih n

/-- C1: upserting the same filename twice in sequence leaves exactly one row
keyed by that filename, carrying the second upsert's transcript and
timestamp — at most one live record per filename, provided the starting
worksheet itself respects the invariant (at most one row for that key). -/
theorem upsert_idempotent_per_filename (ws : List SheetRow)
    (f x y t1 t2 : String) (h : countKey ws f ≤ 1) :
    countKey (write_to_google_sheet (write_to_google_sheet ws f x t1) f y t2) f
        = 1 ∧
    ∀ r ∈ write_to_google_sheet (write_to_google_sheet ws f x t1) f y t2,
      r.c2 = f → r.c1 = t2 ∧ r.c3 = y := by
  have h1 := (write_establishes ws f x t1 h).1
  exact write_establishes (write_to_google_sheet ws f x t1) f y t2 (by omega)

/-- Witness for C1 at a concrete worksheet: a header-only sheet upserted
twice for `a.mp3`. -/
theorem upsert_idempotent_per_filename_witness :
    countKey [headerRow] "a.mp3" ≤ 1 ∧
    (countKey (write_to_google_sheet
        (write_to_google_sheet [headerRow] "a.mp3" "X" "t1") "a.mp3" "Y" "t2")
        "a.mp3" = 1 ∧
     ∀ r ∈ write_to_google_sheet
        (write_to_google_sheet [headerRow] "a.mp3" "X" "t1") "a.mp3" "Y" "t2",
       r.c2 = "a.mp3" → r.c1 = "t2" ∧ r.c3 = "Y") :=
  ⟨by decide,
   upsert_idempotent_per_filename [headerRow] "a.mp3" "X" "Y" "t1" "t2"
     (by decide)⟩

/-- C7: on a worksheet that already exists (non-empty, so the header/
provisioning branch is not taken), an upsert whose key-column scan finds a
match at index `i` only rewrites cells 1 and 3 of row `i` — the key cell of
row `i` and every other row are unchanged and the length is unchanged —
and an upsert whose scan finds no match appends exactly one new row,
modifying nothing else. -/
theorem upsert_frame_effect (ws : List SheetRow) (f x t : String)
    (hne : ws ≠ []) :
    (∀ i, findKeyIdx f ws = some i →
       (write_to_google_sheet ws f x t).length = ws.length ∧
       (∀ j, j ≠ i → (write_to_google_sheet ws f x t)[j]? = ws[j]?) ∧
       (write_to_google_sheet ws f x t)[i]? =
         ws[i]?.map (fun r => (⟨t, r.c2, x⟩ : SheetRow))) ∧
    (findKeyIdx f ws = none →
       write_to_google_sheet ws f x t = ws ++ [⟨t, f, x⟩]) := by
  have hE : ws.isEmpty = false := by
    cases ws with
    | nil => exact absurd rfl hne
    | cons r rest => rfl
  constructor
  · intro i hi
    have hw : write_to_google_sheet ws f x t = updateRow ws i t x := by
      unfold write_to_google_sheet
      rw [hE]
      show (match findKeyIdx f ws with
            | some i => updateRow ws i t x
            | none => ws ++ [⟨t, f, x⟩]) = updateRow ws i t x
      rw [hi]
    rw [hw]
    exact ⟨updateRow_length ws i t x,
      fun j hj => updateRow_getElem_ne ws i t x j hj,
      updateRow_getElem_self ws i t x⟩
  · intro hn
    unfold write_to_google_sheet
    rw [hE]
    show (match findKeyIdx f ws with
          | some i => updateRow ws i t x
          | none => ws ++ [⟨t, f, x⟩]) = ws ++ [⟨t, f, x⟩]
    rw [hn]

/-- Witness for C7 on a concrete two-row worksheet (header plus one data
row), exercising the matching branch. -/
theorem upsert_frame_effect_witness :
    (sampleSheet ≠ []) ∧
    ((∀ i, findKeyIdx "a.mp3" sampleSheet = some i →
       (write_to_google_sheet sampleSheet "a.mp3" "new" "t1").length =
         sampleSheet.length ∧
       (∀ j, j ≠ i →
         (write_to_google_sheet sampleSheet "a.mp3" "new" "t1")[j]? =
           sampleSheet[j]?) ∧
       (write_to_google_sheet sampleSheet "a.mp3" "new" "t1")[i]? =
         sampleSheet[i]?.map (fun r => (⟨"t1", r.c2, "new"⟩ : SheetRow))) ∧
     (findKeyIdx "a.mp3" sampleSheet = none →
       write_to_google_sheet sampleSheet "a.mp3" "new" "t1" =
         sampleSheet ++ [⟨"t1", "a.mp3", "new"⟩])) :=
  ⟨by decide,
   upsert_frame_effect sampleSheet "a.mp3" "new" "t1" (by decide)⟩

/-- C8 counterexample: the claim says no upsert, for any key value, modifies
any cell of row 1 once the header exists — but an upsert whose
`audio_filename` equals the header's key-column label `"Audio Filename"`
matches the header row itself and overwrites its cells 1 and 3. -/
theorem header_rewritten_by_colliding_key :
    (write_to_google_sheet [headerRow] "Audio Filename" "X" "t1")[0]? ≠
      some headerRow := by decide

/-- C8 as amended: the header is written exactly once — it is placed as
row 1 when the worksheet is created/empty, and every later upsert whose key
differs from the header's own key-column label `"Audio Filename"` leaves
row 1 untouched. -/
theorem header_written_once (f x t : String) (hf : f ≠ "Audio Filename") :
    (write_to_google_sheet [] f x t)[0]? = some headerRow ∧
    ∀ ws : List SheetRow, ws[0]? = some headerRow →
      (write_to_google_sheet ws f x t)[0]? = some headerRow := by
  have hbeq : ("Audio Filename" == f) = false := by
    simp [BEq.beq]
    intro hcontra
    exact hf hcontra.symm
  constructor
  · unfold write_to_google_sheet
    show (match findKeyIdx f [headerRow] with
          | some i => updateRow [headerRow] i t x
          | none => [headerRow] ++ [(⟨t, f, x⟩ : SheetRow)])[0]? = some headerRow
    rw [findKeyIdx, findKeyIdx]
    show (match (if ("Audio Filename" == f) = true then some 0
                 else Option.map (· + 1) none) with
          | some i => updateRow [headerRow] i t x
          | none => [headerRow] ++ [(⟨t, f, x⟩ : SheetRow)])[0]? = some headerRow
    rw [hbeq]
    rfl
  · intro ws hws
    cases ws with
    | nil => simp at hws
    | cons r rest =>
      have hr : r = headerRow := by simpa using hws
      subst hr
      unfold write_to_google_sheet
      show (match findKeyIdx f (headerRow :: rest) with
            | some i => updateRow (headerRow :: rest) i t x
            | none => (headerRow :: rest) ++ [(⟨t, f, x⟩ : SheetRow)])[0]? = some headerRow
      rw [findKeyIdx]
      show (match (if ("Audio Filename" == f) = true then some 0
                   else Option.map (· + 1) (findKeyIdx f rest)) with
            | some i => updateRow (headerRow :: rest) i t x
            | none => (headerRow :: rest) ++ [(⟨t, f, x⟩ : SheetRow)])[0]? = some headerRow
      rw [hbeq]
      cases hfi : findKeyIdx f rest with
      | none => simp
      | some i => simp [updateRow]

/-- Witness for C8's amended statement at the concrete key `"a.mp3"`. -/
theorem header_written_once_witness :
    ("a.mp3" ≠ "Audio Filename") ∧
    ((write_to_google_sheet [] "a.mp3" "X" "t1")[0]? = some headerRow ∧
     ∀ ws : List SheetRow, ws[0]? = some headerRow →
       (write_to_google_sheet ws "a.mp3" "X" "t1")[0]? = some headerRow) :=
  ⟨by decide, header_written_once "a.mp3" "X" "t1" (by decide)⟩

lemma processSentences_eq_spec (ss : List (List Char)) :
    processSentences ss = normalizeSpecSentences ss := by
  unfold processSentences normalizeSpecSentences
  congr 1
  induction ss with
  | nil => rfl
  | cons s rest ih =>
    rw [List.flatMap_cons, List.filter_cons, ← ih]
    by_cases h : (pyStrip s).isEmpty
    · have hs : pyStrip s = [] := List.isEmpty_iff.mp h
      simp [h, hs]
    · have hs : ∃ c cs, pyStrip s = c :: cs := by
        cases hcs : pyStrip s with
        | nil => rw [hcs] at h; exact absurd rfl h
        | cons c cs => exact ⟨c, cs, rfl⟩
      obtain ⟨c, cs, hs⟩ := hs
      cases hgl : (c.toUpper :: cs).getLast? with
      | none => simp at hgl
      | some last =>
        simp only [hs, hgl, List.isEmpty_cons, Bool.not_false, if_true,
          List.map_cons, List.mem_cons, List.not_mem_nil, or_false,
          List.singleton_append]
        by_cases hl : last = '.' ∨ last = '!' ∨ last = '?' <;>
          · unfold processSentence
            simp [hs, hgl, hl]

/-- C2: `post_process_text` collapses whitespace, segments, and — for each
sentence that is non-empty after trimming — trims it, upper-cases its first
character, appends a terminal `.` only when the sentence does not already
end in `.`, `!` or `?`, and joins with single spaces (the spec-worded
`normalizeSpecSentences`); empty input yields empty output; and on
`"hello world. this is A test"` (with the segmenter splitting at sentence
boundaries) the result is `"Hello world. This is A test."`. -/
theorem normalize_matches_spec :
    (∀ tok, post_process_text tok [] = some []) ∧
    (∀ tok raw ss, raw ≠ [] → tok (collapseWs raw) = some ss →
      post_process_text tok raw = some (normalizeSpecSentences ss)) ∧
    post_process_text (fun t => some (fallbackSplit t))
        ("hello world. this is A test".toList) =
      some ("Hello world. This is A test.".toList) := by
  refine ⟨fun tok => rfl, fun tok raw ss hraw htok => ?_, by decide⟩
  unfold post_process_text
  rw [if_neg (by simpa [List.isEmpty_iff] using hraw), htok]
  show some (processSentences ss) = some (normalizeSpecSentences ss)
  rw [processSentences_eq_spec]

/-- Witness for C2's conditional conjunct at a concrete input and
segmenter. -/
theorem normalize_matches_spec_witness :
    (("a. b".toList ≠ ([] : List Char)) ∧
     (fun t => some (fallbackSplit t)) (collapseWs "a. b".toList) =
       some ["a.".toList, "b".toList]) ∧
    post_process_text (fun t => some (fallbackSplit t)) "a. b".toList =
      some (normalizeSpecSentences ["a.".toList, "b".toList]) :=
  ⟨⟨by decide, by decide⟩,
   normalize_matches_spec.2.1 (fun t => some (fallbackSplit t)) "a. b".toList
     ["a.".toList, "b".toList] (by decide) (by decide)⟩

/-- C3 counterexample: in `src/app.py` the `sent_tokenize` call has no
exception handler, so a segmenter failure escapes `post_process_text`
(modelled as `none`) instead of being absorbed by any fallback — the claim
"no exception escapes the function" fails on that variant at the concrete
input `"hi. there"`. -/
theorem normalize_totality_cex :
    post_process_text (fun _ => none) ("hi. there".toList) = none := by decide

/-- C3 as amended: only the Heroku variant of `post_process_text` is total —
when the segmenter fails it falls back to the conservative split on `". "`,
`"! "`, `"? "` and still returns a result — while the `src/app.py` variant
propagates the segmenter failure. -/
theorem heroku_fallback_absorbs_segmenter_failure
    (tok : List Char → Option (List (List Char))) (raw : List Char)
    (hraw : raw ≠ []) (htok : tok (collapseWs raw) = none) :
    post_process_text_heroku tok raw =
      processSentences (fallbackSplit (collapseWs raw)) ∧
    post_process_text tok raw = none := by
  have hne : ¬(raw.isEmpty = true) := by simpa [List.isEmpty_iff] using hraw
  constructor
  · unfold post_process_text_heroku
    rw [if_neg hne]
    simp only [htok]
  · unfold post_process_text
    rw [if_neg hne, htok]
    rfl

/-- Witness for C3's amended statement: a failing segmenter on
`"hi there. bye"`. -/
theorem heroku_fallback_witness :
    (("hi there. bye".toList ≠ ([] : List Char)) ∧
     (fun _ : List Char => (none : Option (List (List Char))))
         (collapseWs "hi there. bye".toList) = none) ∧
    (post_process_text_heroku (fun _ => none) "hi there. bye".toList =
       processSentences (fallbackSplit (collapseWs "hi there. bye".toList)) ∧
     post_process_text (fun _ => none) "hi there. bye".toList = none) :=
  ⟨⟨by decide, rfl⟩,
   heroku_fallback_absorbs_segmenter_failure (fun _ => none)
     "hi there. bye".toList (by decide) rfl⟩

lemma removeIfExists_not_mem {fs : List String} {p : String} (h : p ∉ fs) :
    removeIfExists fs p = fs := by
  unfold removeIfExists
  rw [if_neg h]

lemma removeIfExists_append_self {fs : List String} {p : String}
    (h : p ∉ fs) : removeIfExists (fs ++ [p]) p = fs := by
  unfold removeIfExists
  rw [if_pos (by simp), List.erase_append_right _ h]
  simp

/-- C9: on every exit path of `/transcribe` — missing fields, invalid
base64, transcription failure, post-processing or local-write exception,
sheet failure and success — the uniquely-named temporary audio file does
not remain afterwards (uniqueness of the `uuid4` name is the hypothesis
`hfresh`); and the invalid-base64 path returns 400 with the state — files
and store-write count — untouched. -/
theorem temp_file_never_remains (hasFields decodeOk : Bool)
    (asr : Option String) (postOk localOk sheetConfigured : Bool)
    (tempPath : String) (s : TranscribeState)
    (hfresh : tempPath ∉ s.files) :
    tempPath ∉ (handle_transcribe hasFields decodeOk asr postOk localOk
        sheetConfigured tempPath s).2.files ∧
    (hasFields = true → decodeOk = false →
      (handle_transcribe hasFields decodeOk asr postOk localOk
          sheetConfigured tempPath s).1 = 400 ∧
      (handle_transcribe hasFields decodeOk asr postOk localOk
          sheetConfigured tempPath s).2 = s) := by
  have h1 : removeIfExists s.files tempPath = s.files :=
    removeIfExists_not_mem hfresh
  have h2 : removeIfExists (s.files ++ [tempPath]) tempPath = s.files :=
    removeIfExists_append_self hfresh
  constructor
  · unfold handle_transcribe
    cases hasFields <;> cases decodeOk <;> cases asr <;> cases postOk <;>
      cases localOk <;> cases sheetConfigured <;>
      simp only [Bool.not_true, Bool.not_false, if_true, if_false,
        Bool.false_eq_true, Bool.true_eq_false, h1, h2] <;>
      exact hfresh
  · intro hh hd
    subst hh; subst hd
    cases s with
    | mk files cnt =>
      unfold handle_transcribe
      simp only [Bool.not_true, Bool.not_false] at h1 ⊢
      simp [h1]

/-- Witness for C9 with a concrete fresh temporary name over an initially
empty uploads directory (invalid-base64 branch). -/
theorem temp_file_never_remains_witness :
    ("u/tmp-1.mp3" ∉ (⟨[], 0⟩ : TranscribeState).files) ∧
    ("u/tmp-1.mp3" ∉ (handle_transcribe true false none true true true
        "u/tmp-1.mp3" ⟨[], 0⟩).2.files ∧
     (true = true → false = false →
       (handle_transcribe true false none true true true
           "u/tmp-1.mp3" ⟨[], 0⟩).1 = 400 ∧
       (handle_transcribe true false none true true true
           "u/tmp-1.mp3" ⟨[], 0⟩).2 = ⟨[], 0⟩)) :=
  ⟨by decide,
   temp_file_never_remains true false none true true true
     "u/tmp-1.mp3" ⟨[], 0⟩ (by decide)⟩

/-- C10: a webhook payload whose `event_type` is not `"form_response"`
yields counters `{processed 0, skipped 1, errors 0}`, with no
sheet-update attempt and no payload mapping performed. -/
theorem non_form_response_skipped (parseIso : String → Option PyDateTime)
    (sheetOutcome : Bool) (payload : Payload)
    (h : payload.event_type ≠ some "form_response") :
    ((process_videoask_payload parseIso sheetOutcome payload).1.processed = 0 ∧
     (process_videoask_payload parseIso sheetOutcome payload).1.skipped = 1 ∧
     (process_videoask_payload parseIso sheetOutcome payload).1.errors = 0) ∧
    (process_videoask_payload parseIso sheetOutcome payload).2.1 = 0 ∧
    (process_videoask_payload parseIso sheetOutcome payload).2.2 = 0 := by
  unfold process_videoask_payload
  rw [if_pos h]
  exact ⟨⟨rfl, rfl, rfl⟩, rfl, rfl⟩

/-- Witness for C10 at a concrete non-form-response payload. -/
theorem non_form_response_skipped_witness :
    ((⟨some "ping", none, none⟩ : Payload).event_type ≠
        some "form_response") ∧
    (((process_videoask_payload pyFromIso true
          ⟨some "ping", none, none⟩).1.processed = 0 ∧
      (process_videoask_payload pyFromIso true
          ⟨some "ping", none, none⟩).1.skipped = 1 ∧
      (process_videoask_payload pyFromIso true
          ⟨some "ping", none, none⟩).1.errors = 0) ∧
     (process_videoask_payload pyFromIso true
         ⟨some "ping", none, none⟩).2.1 = 0 ∧
     (process_videoask_payload pyFromIso true
         ⟨some "ping", none, none⟩).2.2 = 0) :=
  ⟨by decide,
   non_form_response_skipped pyFromIso true ⟨some "ping", none, none⟩
     (by decide)⟩

lemma processAnswer_identity (qm : String → Option QuestionInfo)
    (md : MappedData) (a : Answer) :
    (processAnswer qm md a).name = md.name ∧
    (processAnswer qm md a).date = md.date ∧
    (processAnswer qm md a).email = md.email ∧
    (processAnswer qm md a).location = md.location := by
  cases hq : a.question_id with
  | none => simp [processAnswer, hq]
  | some qid =>
    cases hm : qm qid with
    | none => simp [processAnswer, hq, hm]
    | some info =>
      cases info with
      | mk ty su => cases ty <;> simp [processAnswer, hq, hm, setPair]

lemma processAnswers_identity (qm : String → Option QuestionInfo)
    (answers : List Answer) : ∀ md : MappedData,
    (processAnswers qm md answers).name = md.name ∧
    (processAnswers qm md answers).date = md.date ∧
    (processAnswers qm md answers).email = md.email ∧
    (processAnswers qm md answers).location = md.location := by
  induction answers with
  | nil => intro md; exact ⟨rfl, rfl, rfl, rfl⟩
  | cons a as ih =>
    intro md
    have h1 := processAnswer_identity qm md a
    have h2 := ih (processAnswer qm md a)
    exact ⟨h2.1.trans h1.1, h2.2.1.trans h1.2.1,
      h2.2.2.1.trans h1.2.2.1, h2.2.2.2.trans h1.2.2.2⟩

/-- C4 counterexample: a contact whose creation timestamp is present but
unparseable does not yield an empty `Date` — line 268 calls
`datetime.fromisoformat` with no exception handler, so the `ValueError`
propagates and the whole mapping fails (`none`), here at the concrete
input `created_at = "not-a-date"`. -/
theorem unparseable_created_at_fails_mapping :
    map_videoask_to_sheet pyFromIso
      { emptyContact with created_at := some "not-a-date" } ⟨[]⟩ = none := by
  decide

/-- C4 as amended: `PayloadMapper` copies the identity fields verbatim
(`Name` ← `name`, `EMAIL` ← `email`, `LOCATION` ← `product_name`) and
reformats `DATE` from the creation timestamp after replacing `'Z'` with
`'+00:00'`; a missing timestamp yields an empty `Date`; but an
*unparseable* timestamp makes the whole mapping raise instead of yielding
an empty `Date`. -/
theorem map_identity_fields (parseIso : String → Option PyDateTime)
    (contact : Contact) (form : Form) :
    (contact.created_at.getD "" = "" →
      ∃ md, map_videoask_to_sheet parseIso contact form = some md ∧
        md.date = "" ∧ md.name = contact.name.getD "" ∧
        md.email = contact.email.getD "" ∧
        md.location = contact.product_name.getD "") ∧
    (∀ dt, contact.created_at.getD "" ≠ "" →
      parseIso (replaceZ (contact.created_at.getD "")) = some dt →
      ∃ md, map_videoask_to_sheet parseIso contact form = some md ∧
        md.date = strftimeDateTime dt ∧ md.name = contact.name.getD "" ∧
        md.email = contact.email.getD "" ∧
        md.location = contact.product_name.getD "") ∧
    (contact.created_at.getD "" ≠ "" →
      parseIso (replaceZ (contact.created_at.getD "")) = none →
      map_videoask_to_sheet parseIso contact form = none) := by
  refine ⟨fun hmiss => ?_, fun dt hne hp => ?_, fun hne hp => ?_⟩
  · obtain ⟨n, d, e, l⟩ := processAnswers_identity
      (buildQuestionMap form.questions) contact.answers
      { emptyMappedData with
          name := contact.name.getD ""
          date := ""
          email := contact.email.getD ""
          location := contact.product_name.getD "" }
    refine ⟨_, ?_, d, n, e, l⟩
    simp only [map_videoask_to_sheet]
    rw [if_neg (by simpa using hmiss)]
  · obtain ⟨n, d, e, l⟩ := processAnswers_identity
      (buildQuestionMap form.questions) contact.answers
      { emptyMappedData with
          name := contact.name.getD ""
          date := strftimeDateTime dt
          email := contact.email.getD ""
          location := contact.product_name.getD "" }
    refine ⟨_, ?_, d, n, e, l⟩
    simp only [map_videoask_to_sheet]
    rw [if_pos hne, hp]
  · simp only [map_videoask_to_sheet]
    rw [if_pos hne, hp]

/-- Witness for C4's amended statement: the sample contact whose `Z`-marked
timestamp parses to `sampleDT`. -/
theorem map_identity_fields_witness :
    (sampleContact.created_at.getD "" ≠ "" ∧
     pyFromIso (replaceZ (sampleContact.created_at.getD "")) = some sampleDT) ∧
    ∃ md, map_videoask_to_sheet pyFromIso sampleContact ⟨[]⟩ = some md ∧
      md.date = strftimeDateTime sampleDT ∧
      md.name = sampleContact.name.getD "" ∧
      md.email = sampleContact.email.getD "" ∧
      md.location = sampleContact.product_name.getD "" :=
  ⟨⟨by decide, by decide⟩,
   (map_identity_fields pyFromIso sampleContact ⟨[]⟩).2.1 sampleDT
     (by decide) (by decide)⟩

lemma questionTypeOf_eq_spec (label title : String) :
    questionTypeOf label title = questionTypeSpec label title := by
  unfold questionTypeOf questionTypeSpec markerTable
  simp only [List.find?]
  cases h1 : containsSub "Introduce Yourself" label ||
      containsSub "Introduce Yourself" title <;>
    cases h2 : containsSub "Foundation\x27s Influence" label ||
        containsSub "Foundation\x27s Influence" title <;>
      cases h3 : containsSub "Sharing Advice" label ||
          containsSub "Sharing Advice" title <;>
        cases h4 : containsSub "Purpose & Joy" label ||
            containsSub "Purpose & Joy" title <;>
          cases h5 : containsSub "Staying Connected" label ||
              containsSub "Staying Connected" title <;>
            simp [h1, h2, h3, h4, h5]

lemma buildQuestionMap_aux (i : String) (qs : List Question) :
    ∀ qm0 : String → Option QuestionInfo,
    (∀ q ∈ qs, q.question_id = some i →
      questionTypeOf (q.label.getD "") (q.title.getD "") = none) →
    qm0 i = none →
    qs.foldl
      (fun qm question =>
        let label := question.label.getD ""
        let title := question.title.getD ""
        let share_url := question.share_url.getD ""
        match questionTypeOf label title, question.question_id with
        | some ty, some qid =>
          if qid ≠ "" then
            fun j => if j = qid then some ⟨ty, share_url⟩ else qm j
          else qm
        | _, _ => qm)
      qm0 i = none := by
  induction qs with
  | nil => intro qm0 _ h0; exact h0
  | cons q qs ih =>
    intro qm0 hq h0
    refine ih _ (fun p hp hpi => hq p (List.mem_cons_of_mem q hp) hpi) ?_
    cases hty : questionTypeOf (q.label.getD "") (q.title.getD "") with
    | none => simpa [hty] using h0
    | some ty =>
      cases hid : q.question_id with
      | none => simpa [hty, hid] using h0
      | some qid =>
        by_cases hq0 : qid = ""
        · simpa [hty, hid, hq0] using h0
        · simp only [hty, hid, if_pos (by simpa using hq0), ne_eq]
          by_cases hiq : i = qid
          · exfalso
            subst hiq
            exact (by simpa [hty] using hq q (List.mem_cons_self q qs) hid)
          · simpa [hiq, hq0] using h0

/-- C5: the classifier assigns the category of the first marker phrase in
the fixed order that occurs as a case-sensitive substring of the label or
title (it equals the spec-worded ordered-table lookup
`questionTypeSpec`); a label containing both `"Sharing Advice"` and
`"Purpose & Joy"` classifies as Advice; a question matching no marker is
omitted from the id→category mapping; and an answer whose id is unmapped
contributes nothing. -/
theorem classifier_first_marker_wins :
    (∀ label title,
      questionTypeOf label title = questionTypeSpec label title) ∧
    questionTypeOf "We value Sharing Advice and Purpose & Joy" "" =
      some .advice ∧
    (∀ qs i, (∀ q ∈ qs, q.question_id = some i →
        questionTypeOf (q.label.getD "") (q.title.getD "") = none) →
      buildQuestionMap qs i = none) ∧
    (∀ qm md a, (∀ qid, a.question_id = some qid → qm qid = none) →
      processAnswer qm md a = md) := by
  refine ⟨questionTypeOf_eq_spec, by decide, fun qs i hq => ?_,
    fun qm md a ha => ?_⟩
  · exact buildQuestionMap_aux i qs _ hq rfl
  · cases hid : a.question_id with
    | none => simp [processAnswer, hid]
    | some qid => simp [processAnswer, hid, ha qid hid]

/-- Witness for C5's conditional conjuncts: a one-question form whose
label matches no marker, and an answer to an unmapped question id. -/
theorem classifier_first_marker_wins_witness :
    ((∀ q ∈ [(⟨some "q9", some "Favourite colour?", some "Colour", none⟩ :
          Question)], q.question_id = some "q9" →
        questionTypeOf (q.label.getD "") (q.title.getD "") = none) ∧
     (∀ qid, (wAnswerSecond : Answer).question_id = some qid →
        (fun _ : String => (none : Option QuestionInfo)) qid = none)) ∧
    (buildQuestionMap
        [⟨some "q9", some "Favourite colour?", some "Colour", none⟩]
        "q9" = none ∧
     processAnswer (fun _ => none) emptyMappedData wAnswerSecond =
       emptyMappedData) :=
  ⟨⟨by decide, fun qid _ => rfl⟩,
   classifier_first_marker_wins.2.2.1
     [⟨some "q9", some "Favourite colour?", some "Colour", none⟩] "q9"
     (by decide),
   classifier_first_marker_wins.2.2.2 (fun _ => none) emptyMappedData
     wAnswerSecond (fun qid _ => rfl)⟩

lemma pairOf_setPair_same (md : MappedData) (ty : QuestionType)
    (l c : String) : pairOf (setPair md ty l c) ty = (l, c) := by
  cases ty <;> rfl

lemma pairOf_setPair_ne (md : MappedData) (ty' ty : QuestionType)
    (l c : String) (h : ty' ≠ ty) :
    pairOf (setPair md ty' l c) ty = pairOf md ty := by
  cases ty' <;> cases ty <;> first | exact absurd rfl h | rfl

lemma processAnswers_lww (qm : String → Option QuestionInfo)
    (ty : QuestionType) (answers : List Answer) : ∀ md0 : MappedData,
    pairOf (processAnswers qm md0 answers) ty =
      match (relevantAnswers qm ty answers).getLast? with
      | some a => derivedPair qm a
      | none => pairOf md0 ty := by
  induction answers using List.reverseRecOn with
  | nil => intro md0; rfl
  | append_singleton as a ih =>
    intro md0
    simp only [processAnswers, List.foldl_append, List.foldl_cons,
      List.foldl_nil, relevantAnswers, List.filter_append]
    simp only [processAnswers, relevantAnswers] at ih
    cases hid : a.question_id with
    | none =>
      have hstep : processAnswer qm (as.foldl (processAnswer qm) md0) a =
          as.foldl (processAnswer qm) md0 := by
        simp [processAnswer, hid]
      rw [hstep]
      have hfa : List.filter (fun a =>
          match a.question_id with
          | none => false
          | some qid =>
            match qm qid with
            | none => false
            | some info => info.qtype = ty) [a] = [] := by
        simp [List.filter, hid]
      rw [hfa, List.append_nil]
      exact ih md0
    | some qid =>
      cases hm : qm qid with
      | none =>
        have hstep : processAnswer qm (as.foldl (processAnswer qm) md0) a =
            as.foldl (processAnswer qm) md0 := by
          simp [processAnswer, hid, hm]
        rw [hstep]
        have hfa : List.filter (fun a =>
            match a.question_id with
            | none => false
            | some qid =>
              match qm qid with
              | none => false
              | some info => info.qtype = ty) [a] = [] := by
          simp [List.filter, hid, hm]
        rw [hfa, List.append_nil]
        exact ih md0
      | some info =>
        by_cases hty : info.qtype = ty
        · have hstep : processAnswer qm (as.foldl (processAnswer qm) md0) a =
              setPair (as.foldl (processAnswer qm) md0) info.qtype
                (a.share_url.getD info.share_url) (answer_content a) := by
            simp [processAnswer, hid, hm]
          have hfa : List.filter (fun a =>
              match a.question_id with
              | none => false
              | some qid =>
                match qm qid with
                | none => false
                | some info => info.qtype = ty) [a] = [a] := by
            simp [List.filter, hid, hm, hty]
          rw [hstep, hfa, List.getLast?_concat, hty, pairOf_setPair_same]
          simp [derivedPair, hid, hm]
        · have hstep : processAnswer qm (as.foldl (processAnswer qm) md0) a =
              setPair (as.foldl (processAnswer qm) md0) info.qtype
                (a.share_url.getD info.share_url) (answer_content a) := by
            simp [processAnswer, hid, hm]
          have hfa : List.filter (fun a =>
              match a.question_id with
              | none => false
              | some qid =>
                match qm qid with
                | none => false
                | some info => info.qtype = ty) [a] = [] := by
            simp [List.filter, hid, hm, hty]
          rw [hstep, hfa, List.append_nil, pairOf_setPair_ne _ _ _ _ _ hty]
          exact ih md0

lemma pairOf_initial (ty : QuestionType) (n d e l : String) :
    pairOf { emptyMappedData with
        name := n, date := d, email := e, location := l } ty = ("", "") := by
  cases ty <;> rfl

/-- C6: in a successfully produced `ContactRow`, each category's
`(link, content)` pair equals the values derived from the latest answer in
payload iteration order classified to that category (last-write-wins), and
a category with no classified answer retains the empty pair. -/
theorem last_write_wins_per_category (parseIso : String → Option PyDateTime)
    (contact : Contact) (form : Form) (md : MappedData)
    (h : map_videoask_to_sheet parseIso contact form = some md)
    (ty : QuestionType) :
    pairOf md ty =
      match (relevantAnswers (buildQuestionMap form.questions) ty
          contact.answers).getLast? with
      | some a => derivedPair (buildQuestionMap form.questions) a
      | none => ("", "") := by
  simp only [map_videoask_to_sheet] at h
  by_cases hc : contact.created_at.getD "" ≠ ""
  · rw [if_pos hc] at h
    cases hp : parseIso (replaceZ (contact.created_at.getD "")) with
    | none => rw [hp] at h; exact absurd h (by simp)
    | some dt =>
      rw [hp] at h
      simp only [Option.some.injEq] at h
      subst h
      rw [processAnswers_lww]
      cases hgl : (relevantAnswers (buildQuestionMap form.questions) ty
          contact.answers).getLast? with
      | none => simp [pairOf_initial]
      | some a => simp
  · rw [if_neg hc] at h
    simp only [Option.some.injEq] at h
    subst h
    rw [processAnswers_lww]
    cases hgl : (relevantAnswers (buildQuestionMap form.questions) ty
        contact.answers).getLast? with
    | none => simp [pairOf_initial]
    | some a => simp

/-- Witness for C6: two answers to the same Intro question — the produced
row carries the second answer's values. -/
theorem last_write_wins_per_category_witness :
    (map_videoask_to_sheet pyFromIso wContact wForm = some wMapped) ∧
    pairOf wMapped .intro =
      match (relevantAnswers (buildQuestionMap wForm.questions) .intro
          wContact.answers).getLast? with
      | some a => derivedPair (buildQuestionMap wForm.questions) a
      | none => ("", "") :=
  ⟨by decide,
   last_write_wins_per_category pyFromIso wContact wForm wMapped
     (by decide) .intro⟩

end TranscriptionService
